import Mathlib

/-!
Shallow embedding of src/src/paperwork/backend/common/doc.py (class BasicDoc).

Python strings are modelled as lists of characters; the content of a side
file as Option (List Char), with none meaning the file does not exist; an
uncaught Python exception escaping a method is modelled by PyResult.exn.
Filesystem existence (os.path.exists) is modelled by membership of a path in
a finite list of existing paths.
-/

namespace Paperwork

/-- Result of a Python call: a normal return value, or an uncaught exception
(ValueError, OSError, or an IOError going past the handler). -/
inductive PyResult (α : Type) where
  | ok (a : α)
  | exn
  deriving DecidableEq, Repr

/-- The ASCII whitespace characters removed by the Python str.strip method. -/
def isSpaceCh (c : Char) : Bool :=
  c.toNat = 32 || c.toNat = 9 || c.toNat = 10 || c.toNat = 13 || c.toNat = 11 || c.toNat = 12

/-- The ASCII decimal digit characters. -/
def isDigitCh (c : Char) : Bool :=
  48 ≤ c.toNat && c.toNat ≤ 57

/-- Python str.strip(): remove leading and trailing whitespace. -/
def pyStrip (s : List Char) : List Char :=
  ((s.dropWhile isSpaceCh).reverse.dropWhile isSpaceCh).reverse

/-- Python str.split(sep) for a one-character separator: split at every
occurrence of the separator, keeping empty pieces. -/
def pySplit (sep : Char) : List Char → List (List Char)
  | [] => [[]]
  | c :: rest =>
    if c = sep then [] :: pySplit sep rest
    else
      match pySplit sep rest with
      | [] => [[c]]
      | piece :: pieces => (c :: piece) :: pieces

/-- The lines that a Python file object yields through readlines, with the
line terminators removed (the caller strips each line anyway): the pieces
between newline characters, without the empty piece left after a final
newline. -/
def fileLines (content : List Char) : List (List Char) :=
  let pieces := pySplit '\n' content
  if pieces.getLast? = some [] then pieces.dropLast else pieces

/-- The ASCII character of one decimal digit. -/
def digitChar : Nat → Char
  | 0 => '0'
  | 1 => '1'
  | 2 => '2'
  | 3 => '3'
  | 4 => '4'
  | 5 => '5'
  | 6 => '6'
  | 7 => '7'
  | 8 => '8'
  | 9 => '9'
  | _ => '*'

/-- Decimal digit characters of a number, most significant first. The first
argument is fuel for the recursion; natChars always supplies enough. -/
def natCharsAux : Nat → Nat → List Char → List Char
  | 0, _, acc => acc
  | fuel + 1, n, acc =>
    if n < 10 then digitChar n :: acc
    else natCharsAux fuel (n / 10) (digitChar (n % 10) :: acc)

/-- Decimal representation of a natural number, as the Python %d format
produces it. -/
def natChars (n : Nat) : List Char :=
  natCharsAux (n + 1) n []

/-- The Python %02d format for a nonnegative number: decimal digits,
left-padded with zeros to a minimum width of two. -/
def fmt02 (n : Nat) : List Char :=
  if (natChars n).length < 2 then '0' :: natChars n else natChars n

/-- Numeric value of a list of decimal digit characters. -/
def digitsVal (s : List Char) : Nat :=
  s.foldl (fun a c => 10 * a + (c.toNat - 48)) 0

/-- Helper for pyInt: a nonempty all-digit string. -/
def pyIntDigits (s : List Char) : Option Int :=
  if s ≠ [] ∧ s.all isDigitCh = true then some (Int.ofNat (digitsVal s)) else none

/-- Python int(s) in base 10: optional surrounding whitespace, an optional
sign, then decimal digits; anything else raises ValueError (none). -/
def pyInt (s : List Char) : Option Int :=
  match pyStrip s with
  | '+' :: ds => pyIntDigits ds
  | '-' :: ds => (pyIntDigits ds).map (fun v => -v)
  | ds => pyIntDigits ds

/-- Python slice s[a:b] for 0 ≤ a ≤ b. -/
def pySlice (s : List Char) (a b : Nat) : List Char :=
  (s.drop a).take (b - a)

/-- Modelled from the spec: the Label collaborator (paperwork.backend.labels
is not part of the excerpt) is a pair of a name and a color string; equality
is componentwise on the pair, and get_color_str returns the stored color
string. -/
structure Label where
  name : List Char
  color : List Char
  deriving DecidableEq, Repr

/-- The text "%s,%s" % (label.name, label.get_color_str()) of one label. -/
def labelCore (l : Label) : List Char :=
  l.name ++ ',' :: l.color

/-- The line add_label appends for one label, newline included. -/
def labelLine (l : Label) : List Char :=
  labelCore l ++ ['\n']

/-- The full content remove_label and update_label write: one line per
label, in list order. -/
def writeLabelFile (ls : List Label) : List Char :=
  (ls.map labelLine).flatten

/-- The label-subsystem state of one BasicDoc instance: the content of the
labels file inside the document directory (none when the file does not
exist) and the labels entry of self.__cache. -/
structure DocState where
  labelFile : Option (List Char)
  labelCache : Option (List Label)
  deriving DecidableEq, Repr

/-- One line of BasicDoc.__get_labels: line.strip(), then split(",")
destructured into exactly a name and a color; any other number of fields
raises ValueError (none). -/
def parseLabelLine (line : List Char) : Option Label :=
  match pySplit ',' (pyStrip line) with
  | [n, c] => some (Label.mk n c)
  | _ => none

/-- The read loop of BasicDoc.__get_labels over the stripped lines. -/
def parseLabels : List (List Char) → PyResult (List Label)
  | [] => .ok []
  | line :: rest =>
    match parseLabelLine line with
    | some l =>
      match parseLabels rest with
      | .ok ls => .ok (l :: ls)
      | .exn => .exn
    | none => .exn

/-- BasicDoc.__get_labels, file part (doc.py 142-164): a missing file
(IOError) yields the empty list; a malformed line raises. -/
def readLabels : Option (List Char) → PyResult (List Label)
  | none => .ok []
  | some content => parseLabels (fileLines content)

/-- The labels property (doc.py 142-164): return the cached list when
present, otherwise read the file and populate the cache. -/
def getLabels (s : DocState) : PyResult (List Label × DocState) :=
  match s.labelCache with
  | some ls => .ok (ls, s)
  | none =>
    match readLabels s.labelFile with
    | .ok ls => .ok (ls, DocState.mk s.labelFile (some ls))
    | .exn => .exn

/-- BasicDoc.add_label (doc.py 116-125): no-op when an equal label is
present, otherwise append one line (creating the file if needed) and drop
the cache. -/
def addLabel (s : DocState) (l : Label) : PyResult DocState :=
  match getLabels s with
  | .exn => .exn
  | .ok (ls, s1) =>
    if l ∈ ls then .ok s1
    else .ok (DocState.mk (some ((s1.labelFile.getD []) ++ labelLine l)) none)

/-- Sequential add_label calls, as a caller storing a list of labels makes
them. -/
def addLabels (s : DocState) : List Label → PyResult DocState
  | [] => .ok s
  | l :: rest =>
    match addLabel s l with
    | .ok s1 => addLabels s1 rest
    | .exn => .exn

/-- Python list.remove: delete the first occurrence. -/
def removeFirst (x : Label) : List Label → List Label
  | [] => []
  | y :: rest => if y = x then rest else y :: removeFirst x rest

/-- BasicDoc.remove_label (doc.py 127-140): no-op when the label is absent,
otherwise rewrite the whole file without it and drop the cache. -/
def removeLabel (s : DocState) (x : Label) : PyResult DocState :=
  match getLabels s with
  | .exn => .exn
  | .ok (ls, s1) =>
    if x ∈ ls then .ok (DocState.mk (some (writeLabelFile (removeFirst x ls))) none)
    else .ok s1

/-- BasicDoc.update_label (doc.py 166-186): no-op when old is absent,
otherwise remove old, append new at the end, rewrite the file and drop the
cache. -/
def updateLabel (s : DocState) (oldL newL : Label) : PyResult DocState :=
  match getLabels s with
  | .exn => .exn
  | .ok (ls, s1) =>
    if oldL ∈ ls then .ok (DocState.mk (some (writeLabelFile (removeFirst oldL ls ++ [newL]))) none)
    else .ok s1

/-- A document state whose labels file holds exactly the given labels and
whose cache is empty. -/
def docOf (ls : List Label) : DocState :=
  DocState.mk (some (writeLabelFile ls)) none

/-- The label list an observer obtains from the labels property. -/
def labelsOf (s : DocState) : PyResult (List Label) :=
  match getLabels s with
  | .ok (ls, _) => .ok ls
  | .exn => .exn

/-- BasicDoc.__get_extra_text (doc.py 305-311): the empty string when the
side file is absent or unreadable, otherwise its content. -/
def getExtraText : Option (List Char) → List Char
  | none => []
  | some content => content

/-- BasicDoc.__set_extra_text (doc.py 313-322): strip the input; when the
result is empty call os.unlink on the side file (which raises OSError when
the file is absent), otherwise overwrite the file. Returns the new file
state. -/
def setExtraText (file : Option (List Char)) (txt : List Char) : PyResult (Option (List Char)) :=
  let t := pyStrip txt
  if t = [] then
    match file with
    | none => .exn
    | some _ => .ok none
  else .ok (some t)

/-- Identity state of one BasicDoc: self.__docid and self.path. -/
structure Doc where
  docid : List Char
  path : List Char
  deriving DecidableEq, Repr

/-- os.path.join for POSIX paths: an absolute second component wins; an
empty or slash-terminated first component concatenates without a separator;
otherwise a slash goes in between. -/
def joinPath (a b : List Char) : List Char :=
  if b.head? = some '/' then b
  else if a = [] then b
  else if a.getLast? = some '/' then a ++ b
  else a ++ '/' :: b

/-- os.path.dirname for the slash-normalized paths used here: everything
before the last slash, empty when there is none. -/
def dirname (p : List Char) : List Char :=
  match p.reverse.dropWhile (fun c => c ≠ '/') with
  | [] => []
  | _ :: rest => rest.reverse

/-- Candidate docid probed by BasicDoc.__set_docid: the base for index 0,
then base_01, base_02, and so on ("_%02d" % idx). -/
def candidateId (base : List Char) (idx : Nat) : List Char :=
  if idx = 0 then base else base ++ '_' :: fmt02 idx

/-- The while loop of BasicDoc.__set_docid: the first index whose candidate
path does not exist. The search is fuel-bounded; distinct indices give
distinct candidate paths, so at most fs.length probes can hit an existing
path and the fuel passed by setDocid can never run out. -/
def findFreeIdx (fs : List (List Char)) (workdir base : List Char) : Nat → Nat → Option Nat
  | 0, _ => none
  | fuel + 1, idx =>
    if joinPath workdir (candidateId base idx) ∈ fs then
      findFreeIdx fs workdir base fuel (idx + 1)
    else some idx

/-- Outcome of BasicDoc.__set_docid: a normal return, or the os.rename call
raised and the exception propagates, leaving the partially updated object
state behind. -/
inductive SetIdResult where
  | ok (doc : Doc) (fs : List (List Char))
  | renameError (doc : Doc) (fs : List (List Char))
  deriving DecidableEq, Repr

/-- BasicDoc.__set_docid (doc.py 268-285). fs is the list of existing
filesystem paths; renameOk tells whether the os.rename call succeeds.
The source order is kept: self.__docid is assigned before the rename, so a
failed rename leaves the new docid with the old path. -/
def setDocid (doc : Doc) (fs : List (List Char)) (renameOk : Bool) (newBase : List Char) : Option SetIdResult :=
  let workdir := dirname doc.path
  match findFreeIdx fs workdir newBase (fs.length + 1) 0 with
  | none => none
  | some idx =>
    let newDocid := candidateId newBase idx
    let newDocpath := joinPath workdir newDocid
    if doc.path ≠ newDocpath then
      if renameOk then
        some (.ok (Doc.mk newDocid newDocpath) (fs.map (fun p => if p = doc.path then newDocpath else p)))
      else some (.renameError (Doc.mk newDocid doc.path) fs)
    else some (.ok (Doc.mk newDocid doc.path) fs)

/-- BasicDoc.__get_date (doc.py 287-294): slice the leading underscore
segment of the docid as year, month and day; if any int() call fails,
return the sentinel date (1985, 12, 19). -/
def getDate (docid : List Char) : Int × Int × Int :=
  let seg := (pySplit '_' docid).headD []
  match pyInt (pySlice seg 0 4), pyInt (pySlice seg 4 6), pyInt (pySlice seg 6 8) with
  | some y, some m, some d => (y, m, d)
  | _, _, _ => (1985, 12, 19)

/-- The id derived by BasicDoc.__set_date (doc.py 296-301):
"%02d%02d%02d_0000_01" % (year, month, day), for nonnegative components. -/
def dateDocid (y m d : Nat) : List Char :=
  fmt02 y ++ fmt02 m ++ fmt02 d ++ ['_', '0', '0', '0', '0', '_', '0', '1']

/-- BasicDoc.__set_date: derive the canonical id and route it through
__set_docid. -/
def setDate (doc : Doc) (fs : List (List Char)) (renameOk : Bool) (y m d : Nat) : Option SetIdResult :=
  setDocid doc fs renameOk (dateDocid y m d)

/-- A label whose written line is read back unchanged: no comma or newline
in either field, and the line is unchanged by stripping. -/
abbrev GoodLabel (l : Label) : Prop :=
  ',' ∉ l.name ∧ '\n' ∉ l.name ∧ ',' ∉ l.color ∧ '\n' ∉ l.color ∧
    pyStrip (labelCore l) = labelCore l

/-! ### Character and string utility lemmas -/

theorem dropWhile_eq_self_of (p : Char → Bool) (l : List Char) (h : ∀ c ∈ l, p c = false) :
    l.dropWhile p = l := by
  cases l with
  | nil => rfl
  | cons c t => simp [List.dropWhile, h c (List.mem_cons_self c t)]

theorem pyStrip_eq_self (s : List Char) (h : ∀ c ∈ s, isSpaceCh c = false) : pyStrip s = s := by
  unfold pyStrip
  rw [dropWhile_eq_self_of _ _ h, dropWhile_eq_self_of, List.reverse_reverse]
  intro c hc
  exact h c (List.mem_reverse.mp hc)

theorem pySplit_ne_nil (sep : Char) (s : List Char) : pySplit sep s ≠ [] := by
  induction s with
  | nil => simp [pySplit]
  | cons c t ih =>
    by_cases hc : c = sep
    · simp [pySplit, hc]
    · simp only [pySplit, if_neg hc]
      cases hsplit : pySplit sep t with
      | nil => simp
      | cons a b => simp

theorem pySplit_append_cons (sep : Char) (a b : List Char) (h : sep ∉ a) :
    pySplit sep (a ++ sep :: b) = a :: pySplit sep b := by
  induction a with
  | nil => simp [pySplit]
  | cons c t ih =>
    have hc : c ≠ sep := fun hh => h (by simp [hh])
    have ht : sep ∉ t := fun hm => h (List.mem_cons_of_mem c hm)
    simp only [List.cons_append, pySplit, if_neg hc]
    rw [show t.append (sep :: b) = t ++ sep :: b from rfl, ih ht]

theorem pySplit_eq_single (sep : Char) (a : List Char) (h : sep ∉ a) :
    pySplit sep a = [a] := by
  induction a with
  | nil => rfl
  | cons c t ih =>
    have hc : c ≠ sep := fun hh => h (by simp [hh])
    have ht : sep ∉ t := fun hm => h (List.mem_cons_of_mem c hm)
    simp only [pySplit, if_neg hc, ih ht]

theorem take_len_append (a b : List Char) : (a ++ b).take a.length = a := by
  induction a with
  | nil => rfl
  | cons c t ih => simp [ih]

theorem drop_len_append (a b : List Char) : (a ++ b).drop a.length = b := by
  induction a with
  | nil => rfl
  | cons c t ih => simp [ih]

/-! ### Decimal formatting lemmas -/

theorem digitChar_toNat (n : Nat) (h : n < 10) : (digitChar n).toNat = 48 + n := by
  interval_cases n <;> decide

theorem isDigitCh_digitChar (n : Nat) (h : n < 10) : isDigitCh (digitChar n) = true := by
  interval_cases n <;> decide

theorem digit_ne_of (c x : Char) (h : isDigitCh c = true) (hx : isDigitCh x = false) : c ≠ x := by
  intro he
  subst he
  simp [h] at hx

theorem digit_not_space (c : Char) (h : isDigitCh c = true) : isSpaceCh c = false := by
  unfold isDigitCh at h
  unfold isSpaceCh
  simp only [Bool.and_eq_true, decide_eq_true_eq] at h
  simp only [Bool.or_eq_false_iff, decide_eq_false_iff_not]
  omega

theorem natCharsAux_eq (n : Nat) : ∀ (fuel : Nat) (acc : List Char), n < fuel →
    natCharsAux fuel n acc = natChars n ++ acc := by
  induction n using Nat.strong_induction_on with
  | _ n ih =>
    intro fuel acc hfuel
    match fuel with
    | f + 1 =>
      by_cases h10 : n < 10
      · simp [natCharsAux, natChars, h10]
      · have hdiv : n / 10 < n := by omega
        have hdivf : n / 10 < f := by omega
        have lhs : natCharsAux (f + 1) n acc =
            natCharsAux f (n / 10) (digitChar (n % 10) :: acc) := by
          simp [natCharsAux, h10]
        have rhs : natChars n = natChars (n / 10) ++ [digitChar (n % 10)] := by
          have h1 : natChars n = natCharsAux n (n / 10) [digitChar (n % 10)] := by
            simp [natChars, natCharsAux, h10]
          rw [h1, ih (n / 10) hdiv n [digitChar (n % 10)] hdiv]
        rw [lhs, ih (n / 10) hdiv f (digitChar (n % 10) :: acc) hdivf, rhs, List.append_assoc]
        rfl

theorem natChars_lt10 (n : Nat) (h : n < 10) : natChars n = [digitChar n] := by
  simp [natChars, natCharsAux, h]

theorem natChars_ge10 (n : Nat) (h : 10 ≤ n) :
    natChars n = natChars (n / 10) ++ [digitChar (n % 10)] := by
  have h10 : ¬ n < 10 := by omega
  have h1 : natChars n = natCharsAux n (n / 10) [digitChar (n % 10)] := by
    simp [natChars, natCharsAux, h10]
  rw [h1, natCharsAux_eq (n / 10) n [digitChar (n % 10)] (by omega)]

theorem natChars_ne_nil (n : Nat) : natChars n ≠ [] := by
  by_cases h : n < 10
  · rw [natChars_lt10 n h]
    simp
  · rw [natChars_ge10 n (by omega)]
    simp

theorem natChars_all_digits (n : Nat) : (natChars n).all isDigitCh = true := by
  induction n using Nat.strong_induction_on with
  | _ n ih =>
    by_cases h : n < 10
    · rw [natChars_lt10 n h]
      simp [isDigitCh_digitChar n h]
    · rw [natChars_ge10 n (by omega), List.all_append]
      simp [ih (n / 10) (by omega), isDigitCh_digitChar (n % 10) (by omega)]

theorem digitsVal_concat (a : List Char) (c : Char) :
    digitsVal (a ++ [c]) = 10 * digitsVal a + (c.toNat - 48) := by
  unfold digitsVal
  rw [List.foldl_append]
  rfl

theorem digitsVal_natChars (n : Nat) : digitsVal (natChars n) = n := by
  induction n using Nat.strong_induction_on with
  | _ n ih =>
    by_cases h : n < 10
    · rw [natChars_lt10 n h]
      simp [digitsVal, digitChar_toNat n h]
    · rw [natChars_ge10 n (by omega), digitsVal_concat, ih (n / 10) (by omega),
        digitChar_toNat (n % 10) (by omega)]
      omega

theorem natChars_length_two (n : Nat) (h1 : 10 ≤ n) (h2 : n < 100) :
    (natChars n).length = 2 := by
  rw [natChars_ge10 n h1, List.length_append, natChars_lt10 (n / 10) (by omega)]
  rfl

theorem natChars_length_four (n : Nat) (h1 : 1000 ≤ n) (h2 : n ≤ 9999) :
    (natChars n).length = 4 := by
  rw [natChars_ge10 n (by omega), List.length_append]
  have h3 : (natChars (n / 10)).length = 3 := by
    rw [natChars_ge10 (n / 10) (by omega), List.length_append]
    have h4 : (natChars (n / 10 / 10)).length = 2 :=
      natChars_length_two (n / 10 / 10) (by omega) (by omega)
    rw [h4]
    rfl
  rw [h3]
  rfl

theorem fmt02_length (n : Nat) (h : n < 100) : (fmt02 n).length = 2 := by
  by_cases h10 : n < 10
  · simp [fmt02, natChars_lt10 n h10]
  · have hl : (natChars n).length = 2 := natChars_length_two n (by omega) h
    simp [fmt02, hl]

theorem fmt02_ne_nil (n : Nat) : fmt02 n ≠ [] := by
  unfold fmt02
  by_cases h : (natChars n).length < 2
  · simp [h]
  · simp [h, natChars_ne_nil n]

theorem fmt02_all_digits (n : Nat) : (fmt02 n).all isDigitCh = true := by
  unfold fmt02
  by_cases h : (natChars n).length < 2
  · rw [if_pos h, List.all_cons, natChars_all_digits n]
    decide
  · rw [if_neg h]
    exact natChars_all_digits n

theorem digitsVal_fmt02 (n : Nat) : digitsVal (fmt02 n) = n := by
  unfold fmt02
  by_cases h : (natChars n).length < 2
  · rw [if_pos h]
    show List.foldl (fun a c => 10 * a + (c.toNat - 48)) 0 ('0' :: natChars n) = n
    rw [List.foldl_cons]
    have h0 : 10 * 0 + ('0'.toNat - 48) = 0 := by decide
    rw [h0]
    exact digitsVal_natChars n
  · rw [if_neg h]
    exact digitsVal_natChars n

theorem fmt02_of_four (n : Nat) (h1 : 1000 ≤ n) (h2 : n ≤ 9999) : fmt02 n = natChars n := by
  have hlen : ¬ (natChars n).length < 2 := by
    rw [natChars_length_four n h1 h2]
    omega
  unfold fmt02
  rw [if_neg hlen]

theorem all_digits_strip (s : List Char) (h : s.all isDigitCh = true) : pyStrip s = s := by
  apply pyStrip_eq_self
  intro c hc
  rw [List.all_eq_true] at h
  exact digit_not_space c (h c hc)

theorem pyInt_of_digits (s : List Char) (h1 : s ≠ []) (h2 : s.all isDigitCh = true) :
    pyInt s = some (Int.ofNat (digitsVal s)) := by
  unfold pyInt
  rw [all_digits_strip s h2]
  cases s with
  | nil => exact absurd rfl h1
  | cons c rest =>
    have hc : isDigitCh c = true := by
      rw [List.all_eq_true] at h2
      exact h2 c (List.mem_cons_self c rest)
    have hplus : c ≠ '+' := digit_ne_of c '+' hc (by decide)
    have hminus : c ≠ '-' := digit_ne_of c '-' hc (by decide)
    split
    · rename_i ds heq
      rw [List.cons.injEq] at heq
      exact absurd heq.1 hplus
    · rename_i ds heq
      rw [List.cons.injEq] at heq
      exact absurd heq.1 hminus
    · unfold pyIntDigits
      rw [if_pos ⟨h1, h2⟩]

theorem pyInt_fmt02 (n : Nat) : pyInt (fmt02 n) = some (Int.ofNat n) := by
  rw [pyInt_of_digits (fmt02 n) (fmt02_ne_nil n) (fmt02_all_digits n), digitsVal_fmt02 n]

/-! ### Label file round-trip lemmas -/

theorem goodLabel_core_no_nl (l : Label) (h : GoodLabel l) : '\n' ∉ labelCore l := by
  intro hm
  unfold labelCore at hm
  rcases List.mem_append.mp hm with h1 | h2
  · exact h.2.1 h1
  · rcases List.mem_cons.mp h2 with h3 | h4
    · exact absurd h3 (by decide)
    · exact h.2.2.2.1 h4

theorem pySplit_nl_write (ls : List Label) (h : ∀ l ∈ ls, GoodLabel l) :
    pySplit '\n' (writeLabelFile ls) = ls.map labelCore ++ [[]] := by
  induction ls with
  | nil => rfl
  | cons l t ih =>
    have hl : GoodLabel l := h l (List.mem_cons_self l t)
    have ht : ∀ x ∈ t, GoodLabel x := fun x hx => h x (List.mem_cons_of_mem l hx)
    show pySplit '\n' (labelLine l ++ writeLabelFile t) = _
    rw [labelLine, List.append_assoc, List.singleton_append,
      pySplit_append_cons '\n' (labelCore l) (writeLabelFile t) (goodLabel_core_no_nl l hl),
      ih ht]
    rfl

theorem fileLines_write (ls : List Label) (h : ∀ l ∈ ls, GoodLabel l) :
    fileLines (writeLabelFile ls) = ls.map labelCore := by
  unfold fileLines
  rw [pySplit_nl_write ls h]
  simp [List.getLast?_concat, List.dropLast_concat]

theorem parseLabelLine_core (l : Label) (h : GoodLabel l) :
    parseLabelLine (labelCore l) = some l := by
  unfold parseLabelLine
  rw [h.2.2.2.2]
  unfold labelCore
  rw [pySplit_append_cons ',' l.name l.color h.1, pySplit_eq_single ',' l.color h.2.2.1]

theorem parseLabels_map_core (ls : List Label) (h : ∀ l ∈ ls, GoodLabel l) :
    parseLabels (ls.map labelCore) = .ok ls := by
  induction ls with
  | nil => rfl
  | cons l t ih =>
    have hl : GoodLabel l := h l (List.mem_cons_self l t)
    have ht : ∀ x ∈ t, GoodLabel x := fun x hx => h x (List.mem_cons_of_mem l hx)
    rw [List.map_cons]
    unfold parseLabels
    rw [parseLabelLine_core l hl, ih ht]

theorem readLabels_write (ls : List Label) (h : ∀ l ∈ ls, GoodLabel l) :
    readLabels (some (writeLabelFile ls)) = .ok ls := by
  show parseLabels (fileLines (writeLabelFile ls)) = PyResult.ok ls
  rw [fileLines_write ls h, parseLabels_map_core ls h]

theorem getLabels_docOf (ls : List Label) (h : ∀ l ∈ ls, GoodLabel l) :
    getLabels (docOf ls) = .ok (ls, DocState.mk (some (writeLabelFile ls)) (some ls)) := by
  show getLabels (DocState.mk (some (writeLabelFile ls)) none) = _
  unfold getLabels
  rw [readLabels_write ls h]

theorem writeLabelFile_append (ls : List Label) (l : Label) :
    writeLabelFile (ls ++ [l]) = writeLabelFile ls ++ labelLine l := by
  unfold writeLabelFile
  rw [List.map_append, List.flatten_append]
  simp

theorem getLabels_labelFile (s : DocState) (ls : List Label) (s1 : DocState)
    (h : getLabels s = .ok (ls, s1)) : s1.labelFile = s.labelFile := by
  unfold getLabels at h
  cases hc : s.labelCache with
  | some ls0 =>
    rw [hc] at h
    simp only [PyResult.ok.injEq, Prod.mk.injEq] at h
    rw [← h.2]
  | none =>
    rw [hc] at h
    cases hr : readLabels s.labelFile with
    | ok ls0 =>
      rw [hr] at h
      simp only [PyResult.ok.injEq, Prod.mk.injEq] at h
      rw [← h.2]
    | exn =>
      rw [hr] at h
      simp at h

theorem parseLabelLine_none_iff (line : List Char) :
    parseLabelLine line = none ↔ (pySplit ',' (pyStrip line)).length ≠ 2 := by
  unfold parseLabelLine
  cases hs : pySplit ',' (pyStrip line) with
  | nil => simp
  | cons a t =>
    cases t with
    | nil => simp
    | cons b t2 =>
      cases t2 with
      | nil => simp
      | cons c t3 => simp

theorem parseLabels_exn (lines : List (List Char))
    (h : ∃ line ∈ lines, parseLabelLine line = none) : parseLabels lines = .exn := by
  induction lines with
  | nil => simp at h
  | cons a t ih =>
    rcases h with ⟨line, hmem, hnone⟩
    rcases List.mem_cons.mp hmem with h1 | h2
    · subst h1
      unfold parseLabels
      rw [hnone]
    · unfold parseLabels
      cases hp : parseLabelLine a with
      | none => rfl
      | some l => rw [ih ⟨line, h2, hnone⟩]

/-! ### Rename loop lemmas -/

theorem findFreeIdx_spec (fs : List (List Char)) (w base : List Char) :
    ∀ (fuel idx k : Nat), findFreeIdx fs w base fuel idx = some k →
      idx ≤ k ∧ joinPath w (candidateId base k) ∉ fs ∧
      ∀ i, idx ≤ i → i < k → joinPath w (candidateId base i) ∈ fs := by
  intro fuel
  induction fuel with
  | zero =>
    intro idx k h
    simp [findFreeIdx] at h
  | succ f ih =>
    intro idx k h
    unfold findFreeIdx at h
    by_cases hmem : joinPath w (candidateId base idx) ∈ fs
    · rw [if_pos hmem] at h
      obtain ⟨h1, h2, h3⟩ := ih (idx + 1) k h
      refine ⟨by omega, h2, ?_⟩
      intro i hi1 hi2
      by_cases hii : i = idx
      · rw [hii]
        exact hmem
      · exact h3 i (by omega) hi2
    · rw [if_neg hmem] at h
      have hk : idx = k := by
        injection h
      subst hk
      exact ⟨le_refl idx, hmem, fun i hi1 hi2 => by omega⟩

theorem setDocid_ok_inv (doc : Doc) (fs : List (List Char)) (ok : Bool) (nb : List Char)
    (d2 : Doc) (fs2 : List (List Char))
    (h : setDocid doc fs ok nb = some (SetIdResult.ok d2 fs2)) :
    ∃ k, findFreeIdx fs (dirname doc.path) nb (fs.length + 1) 0 = some k ∧
      d2.docid = candidateId nb k ∧
      d2.path = joinPath (dirname doc.path) (candidateId nb k) := by
  cases hf : findFreeIdx fs (dirname doc.path) nb (fs.length + 1) 0 with
  | none =>
    have hh : setDocid doc fs ok nb = none := by
      simp [setDocid, hf]
    rw [hh] at h
    simp at h
  | some k =>
    have hh : setDocid doc fs ok nb =
        (if doc.path ≠ joinPath (dirname doc.path) (candidateId nb k) then
          if ok then
            some (SetIdResult.ok
              (Doc.mk (candidateId nb k) (joinPath (dirname doc.path) (candidateId nb k)))
              (fs.map (fun p =>
                if p = doc.path then joinPath (dirname doc.path) (candidateId nb k) else p)))
          else some (SetIdResult.renameError (Doc.mk (candidateId nb k) doc.path) fs)
        else some (SetIdResult.ok (Doc.mk (candidateId nb k) doc.path) fs)) := by
      simp [setDocid, hf]
    rw [hh] at h
    refine ⟨k, rfl, ?_⟩
    by_cases hne : doc.path ≠ joinPath (dirname doc.path) (candidateId nb k)
    · rw [if_pos hne] at h
      cases ok with
      | true =>
        rw [if_pos rfl] at h
        simp only [Option.some.injEq, SetIdResult.ok.injEq] at h
        rw [← h.1]
        exact ⟨rfl, rfl⟩
      | false =>
        rw [if_neg (by simp)] at h
        simp at h
    · rw [if_neg hne] at h
      push_neg at hne
      simp only [Option.some.injEq, SetIdResult.ok.injEq] at h
      rw [← h.1]
      exact ⟨rfl, hne⟩

/-- C1: counter-evidence at a concrete input. On a document with id old and
directory w/old, a setId(new) call in which the underlying os.rename raises
does not fail atomically: the exception escapes with the docid already set
to new while the path still is w/old, so the id has been updated and the
path has not. -/
theorem setId_rename_failure_updates_id_only :
    setDocid (Doc.mk ("old".data) ("w/old".data)) [("w/old".data)] false ("new".data) =
      some (SetIdResult.renameError (Doc.mk ("new".data) ("w/old".data)) [("w/old".data)]) ∧
    ("new".data : List Char) ≠ ("old".data) := by
  decide

/-- C2: for every successful setId(X) call, path = join(parentDir, id)
afterwards; and when parentDir/X already existed and some free two-digit
suffix exists, the new id is X_NN for the smallest free zero-padded NN with
NN at least 01, its directory did not previously exist, and every smaller
suffixed directory did exist, so no existing directory is overwritten. -/
theorem setId_success_sync_and_collision (doc : Doc) (fs : List (List Char)) (ok : Bool)
    (X : List Char) (d2 : Doc) (fs2 : List (List Char))
    (hres : setDocid doc fs ok X = some (SetIdResult.ok d2 fs2)) :
    d2.path = joinPath (dirname doc.path) d2.docid ∧
    (joinPath (dirname doc.path) X ∈ fs →
      ∀ kf, 1 ≤ kf → kf ≤ 99 →
        joinPath (dirname doc.path) (X ++ '_' :: fmt02 kf) ∉ fs →
        ∃ k, 1 ≤ k ∧ k ≤ 99 ∧ d2.docid = X ++ '_' :: fmt02 k ∧ (fmt02 k).length = 2 ∧
          joinPath (dirname doc.path) d2.docid ∉ fs ∧
          ∀ i, 1 ≤ i → i < k → joinPath (dirname doc.path) (X ++ '_' :: fmt02 i) ∈ fs) := by
  obtain ⟨k, hf, hdocid, hpath⟩ := setDocid_ok_inv doc fs ok X d2 fs2 hres
  obtain ⟨hk0, hfree, htaken⟩ :=
    findFreeIdx_spec fs (dirname doc.path) X (fs.length + 1) 0 k hf
  constructor
  · rw [hpath, hdocid]
  · intro hX kf hkf1 hkf99 hkffree
    have hkne : k ≠ 0 := by
      intro h0
      rw [h0] at hfree
      exact hfree (by simpa [candidateId] using hX)
    have hcand : candidateId X k = X ++ '_' :: fmt02 k := by
      unfold candidateId
      rw [if_neg hkne]
    have hklekf : k ≤ kf := by
      by_contra hgt
      push_neg at hgt
      have hmem := htaken kf (by omega) hgt
      rw [show candidateId X kf = X ++ '_' :: fmt02 kf from by
        unfold candidateId
        rw [if_neg (by omega)]] at hmem
      exact hkffree hmem
    refine ⟨k, by omega, by omega, by rw [hdocid, hcand], fmt02_length k (by omega), ?_, ?_⟩
    · rw [hdocid, hcand, ← hcand]
      exact hfree
    · intro i hi1 hik
      have hmem := htaken i (by omega) hik
      rw [show candidateId X i = X ++ '_' :: fmt02 i from by
        unfold candidateId
        rw [if_neg (by omega)]] at hmem
      exact hmem

/-- C2 witness: renaming to X in a directory where X already exists yields
the id X_01, whose directory did not previously exist. -/
theorem setId_success_witness :
    ∃ k, 1 ≤ k ∧ k ≤ 99 ∧
      (Doc.mk ("X_01".data) ("w/X_01".data)).docid = ("X".data) ++ '_' :: fmt02 k ∧
      (fmt02 k).length = 2 ∧
      joinPath (dirname (Doc.mk ("o".data) ("w/o".data)).path)
        (Doc.mk ("X_01".data) ("w/X_01".data)).docid ∉ [("w/X".data)] ∧
      ∀ i, 1 ≤ i → i < k →
        joinPath (dirname (Doc.mk ("o".data) ("w/o".data)).path)
          (("X".data) ++ '_' :: fmt02 i) ∈ [("w/X".data)] :=
  (setId_success_sync_and_collision (Doc.mk ("o".data) ("w/o".data)) [("w/X".data)] true
    ("X".data) (Doc.mk ("X_01".data) ("w/X_01".data)) [("w/X".data)] (by decide)).2
    (by decide) 1 (by decide) (by decide) (by decide)

/-! ### Date segment lemmas -/

theorem dateSeg_no_us (y m d : Nat) : '_' ∉ fmt02 y ++ (fmt02 m ++ fmt02 d) := by
  intro hmem
  have hdig : isDigitCh '_' = true := by
    rcases List.mem_append.mp hmem with h1 | h23
    · exact (List.all_eq_true.mp (fmt02_all_digits y)) '_' h1
    · rcases List.mem_append.mp h23 with h2 | h3
      · exact (List.all_eq_true.mp (fmt02_all_digits m)) '_' h2
      · exact (List.all_eq_true.mp (fmt02_all_digits d)) '_' h3
  exact absurd hdig (by decide)

theorem dateSeg_head (y m d : Nat) (t : List Char) :
    (pySplit '_' ((fmt02 y ++ (fmt02 m ++ fmt02 d)) ++ ('_' :: t))).headD [] =
      fmt02 y ++ (fmt02 m ++ fmt02 d) := by
  rw [pySplit_append_cons '_' _ t (dateSeg_no_us y m d)]
  rfl

theorem getDate_dateDocid (y m d : Nat) (hy1 : 1000 ≤ y) (hy2 : y ≤ 9999)
    (hm : m ≤ 99) (hd : d ≤ 99) (t : List Char) :
    getDate (fmt02 y ++ (fmt02 m ++ (fmt02 d ++ ('_' :: t)))) =
      (Int.ofNat y, Int.ofNat m, Int.ofNat d) := by
  have hylen : (fmt02 y).length = 4 := by
    rw [fmt02_of_four y hy1 hy2]
    exact natChars_length_four y hy1 hy2
  have hmlen : (fmt02 m).length = 2 := fmt02_length m (by omega)
  have hdlen : (fmt02 d).length = 2 := fmt02_length d (by omega)
  have hshape : fmt02 y ++ (fmt02 m ++ (fmt02 d ++ ('_' :: t))) =
      (fmt02 y ++ (fmt02 m ++ fmt02 d)) ++ ('_' :: t) := by
    simp [List.append_assoc]
  have hs1 : pySlice (fmt02 y ++ (fmt02 m ++ fmt02 d)) 0 4 = fmt02 y := by
    show ((fmt02 y ++ (fmt02 m ++ fmt02 d)).drop 0).take (4 - 0) = fmt02 y
    rw [List.drop_zero, show (4 : Nat) - 0 = (fmt02 y).length from by rw [hylen]]
    exact take_len_append (fmt02 y) (fmt02 m ++ fmt02 d)
  have hdrop4 : (fmt02 y ++ (fmt02 m ++ fmt02 d)).drop 4 = fmt02 m ++ fmt02 d := by
    rw [show (4 : Nat) = (fmt02 y).length from hylen.symm]
    exact drop_len_append (fmt02 y) (fmt02 m ++ fmt02 d)
  have hs2 : pySlice (fmt02 y ++ (fmt02 m ++ fmt02 d)) 4 6 = fmt02 m := by
    show ((fmt02 y ++ (fmt02 m ++ fmt02 d)).drop 4).take (6 - 4) = fmt02 m
    rw [hdrop4, show (6 : Nat) - 4 = (fmt02 m).length from by rw [hmlen]]
    exact take_len_append (fmt02 m) (fmt02 d)
  have hdrop6 : (fmt02 y ++ (fmt02 m ++ fmt02 d)).drop 6 = fmt02 d := by
    rw [show fmt02 y ++ (fmt02 m ++ fmt02 d) = (fmt02 y ++ fmt02 m) ++ fmt02 d from
      (List.append_assoc _ _ _).symm]
    rw [show (6 : Nat) = (fmt02 y ++ fmt02 m).length from by
      rw [List.length_append, hylen, hmlen]]
    exact drop_len_append (fmt02 y ++ fmt02 m) (fmt02 d)
  have hs3 : pySlice (fmt02 y ++ (fmt02 m ++ fmt02 d)) 6 8 = fmt02 d := by
    show ((fmt02 y ++ (fmt02 m ++ fmt02 d)).drop 6).take (8 - 6) = fmt02 d
    rw [hdrop6, show (8 : Nat) - 6 = (fmt02 d).length from by rw [hdlen]]
    exact List.take_length (fmt02 d)
  rw [hshape]
  simp only [getDate]
  rw [dateSeg_head y m d t, hs1, hs2, hs3, pyInt_fmt02 y, pyInt_fmt02 m, pyInt_fmt02 d]

/-- C5: setting extra text to a whitespace-only string deletes an existing
side file and a subsequent read returns the empty string; but on a document
whose side file does not already exist, the unguarded os.unlink raises
OSError, so the operation fails instead of being a graceful no-op. -/
theorem setExtraText_empty_deletes_but_unlink_unguarded :
    setExtraText (some ("abc".data)) ("   ".data) = .ok none ∧
    getExtraText none = [] ∧
    setExtraText none ("   ".data) = .exn := by
  decide

/-- C6 counterexample: for the valid calendar date (999, 1, 2) the derived
id is 9990102_0000_01 — the %02d year format emits only three digits, so the
leading segment has seven characters, not eight — and reading the date
property back yields (9990, 10, 2) instead of (999, 1, 2). -/
theorem setDate_small_year_breaks_roundtrip :
    dateDocid 999 1 2 = ("9990102_0000_01".data) ∧
    ((pySplit '_' (dateDocid 999 1 2)).headD []).length = 7 ∧
    getDate ("9990102_0000_01".data) = (9990, 10, 2) ∧
    ((9990 : Int), (10 : Int), (2 : Int)) ≠ ((999 : Int), (1 : Int), (2 : Int)) := by
  decide

/-- C6 amended: for dates whose year has four digits (1000 to 9999) and
whose month and day are valid, writing the date derives the canonical
eight-digit id base YYYYMMDD_0000_01, and every successful write — with or
without a collision suffix — makes a subsequent date read return the same
(year, month, day). For years below 1000 the %02d year format emits fewer
digits and the property fails, as the counterexample shows. -/
theorem setDate_roundtrip_four_digit_year (doc : Doc) (fs : List (List Char)) (ok : Bool)
    (y m d : Nat) (d2 : Doc) (fs2 : List (List Char))
    (hy1 : 1000 ≤ y) (hy2 : y ≤ 9999) (hm1 : 1 ≤ m) (hm2 : m ≤ 12)
    (hd1 : 1 ≤ d) (hd2 : d ≤ 31)
    (hok : setDate doc fs ok y m d = some (SetIdResult.ok d2 fs2)) :
    getDate d2.docid = (Int.ofNat y, Int.ofNat m, Int.ofNat d) ∧
    ((pySplit '_' (dateDocid y m d)).headD []).length = 8 := by
  have hylen : (fmt02 y).length = 4 := by
    rw [fmt02_of_four y hy1 hy2]
    exact natChars_length_four y hy1 hy2
  have hmlen : (fmt02 m).length = 2 := fmt02_length m (by omega)
  have hdlen : (fmt02 d).length = 2 := fmt02_length d (by omega)
  constructor
  · obtain ⟨k, hf, hdocid, hpath⟩ :=
      setDocid_ok_inv doc fs ok (dateDocid y m d) d2 fs2 hok
    rw [hdocid]
    by_cases hk : k = 0
    · subst hk
      have hcand0 : candidateId (dateDocid y m d) 0 =
          fmt02 y ++ (fmt02 m ++ (fmt02 d ++ ('_' :: ['0', '0', '0', '0', '_', '0', '1']))) := by
        simp [candidateId, dateDocid]
      rw [hcand0]
      exact getDate_dateDocid y m d hy1 hy2 (by omega) (by omega) _
    · have hcandk : candidateId (dateDocid y m d) k =
          fmt02 y ++ (fmt02 m ++ (fmt02 d ++
            ('_' :: (['0', '0', '0', '0', '_', '0', '1'] ++ ('_' :: fmt02 k))))) := by
        unfold candidateId
        rw [if_neg hk]
        unfold dateDocid
        simp [List.append_assoc]
      rw [hcandk]
      exact getDate_dateDocid y m d hy1 hy2 (by omega) (by omega) _
  · have h1 : dateDocid y m d =
        (fmt02 y ++ (fmt02 m ++ fmt02 d)) ++ ('_' :: ['0', '0', '0', '0', '_', '0', '1']) := by
      unfold dateDocid
      simp [List.append_assoc]
    rw [h1, dateSeg_head y m d, List.length_append, List.length_append,
      hylen, hmlen, hdlen]

/-- C6 amended witness: writing the date (2024, 1, 15) to a fresh document
derives the id 20240115_0000_01 and reading the date back returns it. -/
theorem setDate_roundtrip_witness :
    getDate (Doc.mk ("20240115_0000_01".data) ("w/20240115_0000_01".data)).docid =
      (Int.ofNat 2024, Int.ofNat 1, Int.ofNat 15) ∧
    ((pySplit '_' (dateDocid 2024 1 15)).headD []).length = 8 :=
  setDate_roundtrip_four_digit_year (Doc.mk ("o".data) ("w/o".data)) [] true 2024 1 15
    (Doc.mk ("20240115_0000_01".data) ("w/20240115_0000_01".data)) [] (by decide) (by decide)
    (by decide) (by decide) (by decide) (by decide) (by decide)

/-- C9 counterexample: the id 1234567 is malformed — its leading segment has
seven digits and so does not parse as an eight-digit YYYYMMDD date — yet the
date property does not return the sentinel (1985, 12, 19): the three slices
all convert and the result is the misread date (1234, 56, 7). -/
theorem getDate_seven_digits_no_sentinel :
    getDate ("1234567".data) = (1234, 56, 7) ∧
    ((1234 : Int), (56 : Int), (7 : Int)) ≠ ((1985 : Int), (12 : Int), (19 : Int)) := by
  decide

/-- C9 amended: whenever one of the three int conversions of the slices
[0:4], [4:6] and [6:8] of the leading underscore segment fails, the date
property returns the sentinel (1985, 12, 19) and does not raise; the getter
is a pure function of the id and mutates no state. An all-digit leading
segment of the wrong length instead parses and yields a misread date, as the
counterexample shows. -/
theorem getDate_sentinel_on_slice_failure (docid : List Char)
    (h : pyInt (pySlice ((pySplit '_' docid).headD []) 0 4) = none ∨
         pyInt (pySlice ((pySplit '_' docid).headD []) 4 6) = none ∨
         pyInt (pySlice ((pySplit '_' docid).headD []) 6 8) = none) :
    getDate docid = (1985, 12, 19) := by
  simp only [getDate]
  cases h1 : pyInt (pySlice ((pySplit '_' docid).headD []) 0 4) with
  | none => rfl
  | some y =>
    cases h2 : pyInt (pySlice ((pySplit '_' docid).headD []) 4 6) with
    | none => rfl
    | some m =>
      cases h3 : pyInt (pySlice ((pySplit '_' docid).headD []) 6 8) with
      | none => rfl
      | some d =>
        rcases h with h | h | h
        · rw [h1] at h
          cases h
        · rw [h2] at h
          cases h
        · rw [h3] at h
          cases h

/-- C9 amended witness: the spec example id not-a-date hits the fallback;
its first slice fails int conversion and the date property returns the
sentinel. -/
theorem getDate_sentinel_witness :
    pyInt (pySlice ((pySplit '_' ("not-a-date".data)).headD []) 0 4) = none ∧
    getDate ("not-a-date".data) = (1985, 12, 19) :=
  ⟨by decide, getDate_sentinel_on_slice_failure ("not-a-date".data) (Or.inl (by decide))⟩

/-! ### Label claims -/

theorem addLabel_docOf_new (ls0 : List Label) (l : Label)
    (hls : ∀ x ∈ ls0, GoodLabel x) (hnot : l ∉ ls0) :
    addLabel (docOf ls0) l = .ok (docOf (ls0 ++ [l])) := by
  unfold addLabel
  rw [getLabels_docOf ls0 hls]
  simp [hnot, docOf, writeLabelFile_append]

theorem good_append_one (ls0 : List Label) (l : Label)
    (hls : ∀ x ∈ ls0, GoodLabel x) (hl : GoodLabel l) :
    ∀ x ∈ ls0 ++ [l], GoodLabel x := by
  intro x hx
  rcases List.mem_append.mp hx with h1 | h2
  · exact hls x h1
  · rw [List.mem_singleton.mp h2]
    exact hl

/-- C7: remove_label and update_label called with a label the document does
not have are no-ops: both return before opening the file, so the label file
is byte-identical afterwards (only the read cache may have been filled). -/
theorem removeLabel_updateLabel_noop (s : DocState) (ls : List Label) (s1 : DocState)
    (L L2 : Label) (hread : getLabels s = .ok (ls, s1)) (habs : L ∉ ls) :
    removeLabel s L = .ok s1 ∧ updateLabel s L L2 = .ok s1 ∧
    s1.labelFile = s.labelFile := by
  refine ⟨?_, ?_, getLabels_labelFile s ls s1 hread⟩
  · simp [removeLabel, hread, habs]
  · simp [updateLabel, hread, habs]

/-- C7 witness: removing or updating an absent label on a one-label document
returns with the file unchanged. -/
theorem removeLabel_updateLabel_noop_witness :
    removeLabel (DocState.mk (some ("a,b\n".data)) none) (Label.mk ("x".data) ("y".data)) =
      .ok (DocState.mk (some ("a,b\n".data)) (some [Label.mk ("a".data) ("b".data)])) ∧
    updateLabel (DocState.mk (some ("a,b\n".data)) none) (Label.mk ("x".data) ("y".data))
      (Label.mk ("z".data) ("w".data)) =
      .ok (DocState.mk (some ("a,b\n".data)) (some [Label.mk ("a".data) ("b".data)])) ∧
    (DocState.mk (some ("a,b\n".data)) (some [Label.mk ("a".data) ("b".data)])).labelFile =
      (DocState.mk (some ("a,b\n".data)) none).labelFile :=
  removeLabel_updateLabel_noop (DocState.mk (some ("a,b\n".data)) none)
    [Label.mk ("a".data) ("b".data)]
    (DocState.mk (some ("a,b\n".data)) (some [Label.mk ("a".data) ("b".data)]))
    (Label.mk ("x".data) ("y".data)) (Label.mk ("z".data) ("w".data)) (by decide) (by decide)

/-- C10: reading the labels property raises whenever the label file exists
and holds a line that does not split into exactly two comma-separated fields
(no comma, more than one comma, or an empty line); only the missing-file
IOError is handled, in which case the label list is empty. -/
theorem getLabels_malformed_line_raises (content : List Char)
    (h : ∃ line ∈ fileLines content, (pySplit ',' (pyStrip line)).length ≠ 2) :
    getLabels (DocState.mk (some content) none) = .exn ∧
    getLabels (DocState.mk none none) = .ok ([], DocState.mk none (some [])) := by
  constructor
  · have hexn : readLabels (some content) = .exn := by
      show parseLabels (fileLines content) = PyResult.exn
      apply parseLabels_exn
      obtain ⟨line, hmem, hlen⟩ := h
      exact ⟨line, hmem, (parseLabelLine_none_iff line).mpr hlen⟩
    simp [getLabels, hexn]
  · rfl

/-- C10 witness: a label file whose single line has no comma makes the
labels read raise. -/
theorem getLabels_malformed_witness :
    (∃ line ∈ fileLines ("nocomma\n".data), (pySplit ',' (pyStrip line)).length ≠ 2) ∧
    getLabels (DocState.mk (some ("nocomma\n".data)) none) = .exn :=
  ⟨by decide, (getLabels_malformed_line_raises ("nocomma\n".data) (by decide)).1⟩

/-- C8 counterexample: adding the label with name a,b and color c to a
document with no labels succeeds and appends the line a,b,c — but the next
read of the labels property raises ValueError instead of reflecting the
newly added label. -/
theorem addLabel_then_read_raises :
    addLabel (DocState.mk none none) (Label.mk ("a,b".data) ("c".data)) =
      .ok (DocState.mk (some ("a,b,c\n".data)) none) ∧
    getLabels (DocState.mk (some ("a,b,c\n".data)) none) = .exn := by
  decide

/-- C8 amended: after an add_label call that actually adds a label which the
file format represents faithfully, to a document whose stored labels are
also such, the mutator drops the whole cache and the next labels read on the
same instance repopulates from the file and returns the old list extended
with the new label. -/
theorem addLabel_then_read_reflects (ls0 : List Label) (l : Label)
    (hls : ∀ x ∈ ls0, GoodLabel x) (hl : GoodLabel l) (hnot : l ∉ ls0) :
    ∃ s1, addLabel (docOf ls0) l = .ok s1 ∧ s1.labelCache = none ∧
      getLabels s1 = .ok (ls0 ++ [l], DocState.mk s1.labelFile (some (ls0 ++ [l]))) := by
  refine ⟨docOf (ls0 ++ [l]), addLabel_docOf_new ls0 l hls hnot, rfl, ?_⟩
  rw [getLabels_docOf (ls0 ++ [l]) (good_append_one ls0 l hls hl)]
  rfl

/-- C8 amended witness: adding Tax to a document holding Work makes the next
labels read return both, in order. -/
theorem addLabel_then_read_witness :
    ∃ s1, addLabel (docOf [Label.mk ("Work".data) ("#FF0000".data)])
        (Label.mk ("Tax".data) ("#00FF00".data)) = .ok s1 ∧
      s1.labelCache = none ∧
      getLabels s1 = .ok
        ([Label.mk ("Work".data) ("#FF0000".data), Label.mk ("Tax".data) ("#00FF00".data)],
          DocState.mk s1.labelFile
            (some [Label.mk ("Work".data) ("#FF0000".data),
              Label.mk ("Tax".data) ("#00FF00".data)])) :=
  addLabel_then_read_reflects [Label.mk ("Work".data) ("#FF0000".data)]
    (Label.mk ("Tax".data) ("#00FF00".data)) (by decide) (by decide) (by decide)

/-- C4 counterexample: the label with name " a" (leading space) and color b
is not idempotent under add_label: the first call stores the line " a,b",
the second call re-reads the file, strip turns the line into the different
label (a, b), the membership test fails, and the line is appended again, so
the label ends up on disk twice. -/
theorem addLabel_twice_adds_twice :
    addLabel (DocState.mk none none) (Label.mk (" a".data) ("b".data)) =
      .ok (DocState.mk (some (" a,b\n".data)) none) ∧
    addLabel (DocState.mk (some (" a,b\n".data)) none) (Label.mk (" a".data) ("b".data)) =
      .ok (DocState.mk (some (" a,b\n a,b\n".data)) none) ∧
    some (" a,b\n a,b\n".data) ≠ some (" a,b\n".data) := by
  decide

/-- C4 amended: add_label is idempotent for labels that the file format
represents faithfully, on a document whose stored labels are also such: a
second add of the same label succeeds, leaves the file unchanged, and the
observable label list is the same as after the first call. -/
theorem addLabel_idempotent (ls0 : List Label) (l : Label)
    (hls : ∀ x ∈ ls0, GoodLabel x) (hl : GoodLabel l) (s1 : DocState)
    (h1 : addLabel (docOf ls0) l = .ok s1) :
    ∃ s2, addLabel s1 l = .ok s2 ∧ s2.labelFile = s1.labelFile ∧
      labelsOf s2 = labelsOf s1 := by
  by_cases hmem : l ∈ ls0
  · have h1e : addLabel (docOf ls0) l =
        .ok (DocState.mk (some (writeLabelFile ls0)) (some ls0)) := by
      unfold addLabel
      rw [getLabels_docOf ls0 hls]
      simp [hmem]
    rw [h1e] at h1
    have hs1 : s1 = DocState.mk (some (writeLabelFile ls0)) (some ls0) := by
      injection h1 with h1e2
      exact h1e2.symm
    subst hs1
    refine ⟨DocState.mk (some (writeLabelFile ls0)) (some ls0), ?_, rfl, rfl⟩
    simp [addLabel, getLabels, hmem]
  · rw [addLabel_docOf_new ls0 l hls hmem] at h1
    have hs1 : s1 = docOf (ls0 ++ [l]) := by
      injection h1 with h1e2
      exact h1e2.symm
    subst hs1
    have hgood : ∀ x ∈ ls0 ++ [l], GoodLabel x := good_append_one ls0 l hls hl
    have hmem2 : l ∈ ls0 ++ [l] := by
      simp
    refine ⟨DocState.mk (some (writeLabelFile (ls0 ++ [l]))) (some (ls0 ++ [l])), ?_, rfl, ?_⟩
    · unfold addLabel
      rw [getLabels_docOf (ls0 ++ [l]) hgood]
      simp [hmem2]
    · unfold labelsOf
      rw [getLabels_docOf (ls0 ++ [l]) hgood]
      rfl

/-- C4 amended witness: a second add of the label (Work, #FF0000) to the
document that the first add produced is a no-op on the file and on the
observable label list. -/
theorem addLabel_idempotent_witness :
    ∃ s2, addLabel (DocState.mk (some ("Work,#FF0000\n".data)) none)
        (Label.mk ("Work".data) ("#FF0000".data)) = .ok s2 ∧
      s2.labelFile = (DocState.mk (some ("Work,#FF0000\n".data)) none).labelFile ∧
      labelsOf s2 = labelsOf (DocState.mk (some ("Work,#FF0000\n".data)) none) :=
  addLabel_idempotent [] (Label.mk ("Work".data) ("#FF0000".data)) (by decide) (by decide)
    (DocState.mk (some ("Work,#FF0000\n".data)) none) (by decide)

/-- C3 counterexample: the claim quantifies over every list of comma-free,
newline-free labels, but a list with a duplicate does not round-trip:
writing the two-element list [L, L] through add_label stores a single line,
and reloading returns the one-element list [L]. -/
theorem addLabels_duplicate_no_roundtrip :
    addLabels (DocState.mk none none)
      [Label.mk ("a".data) ("b".data), Label.mk ("a".data) ("b".data)] =
      .ok (DocState.mk (some ("a,b\n".data)) (some [Label.mk ("a".data) ("b".data)])) ∧
    getLabels (DocState.mk (some ("a,b\n".data)) none) =
      .ok ([Label.mk ("a".data) ("b".data)],
        DocState.mk (some ("a,b\n".data)) (some [Label.mk ("a".data) ("b".data)])) ∧
    [Label.mk ("a".data) ("b".data)] ≠
      [Label.mk ("a".data) ("b".data), Label.mk ("a".data) ("b".data)] := by
  decide

theorem addLabels_docOf (ls : List Label) : ∀ (acc : List Label),
    (∀ x ∈ acc, GoodLabel x) → (∀ x ∈ ls, GoodLabel x) → (∀ x ∈ ls, x ∉ acc) →
    ls.Nodup → addLabels (docOf acc) ls = .ok (docOf (acc ++ ls)) := by
  induction ls with
  | nil =>
    intro acc h1 h2 h3 h4
    simp [addLabels]
  | cons l t ih =>
    intro acc h1 h2 h3 h4
    have hl : GoodLabel l := h2 l (by simp)
    have hnotm : l ∉ acc := h3 l (by simp)
    unfold addLabels
    rw [addLabel_docOf_new acc l h1 hnotm]
    show addLabels (docOf (acc ++ [l])) t = PyResult.ok (docOf (acc ++ l :: t))
    have hnd := List.nodup_cons.mp h4
    rw [ih (acc ++ [l]) (good_append_one acc l h1 hl)
      (fun x hx => h2 x (by simp [hx]))
      (fun x hx => by
        intro hxm
        rcases List.mem_append.mp hxm with ha | hb
        · exact h3 x (by simp [hx]) ha
        · rw [List.mem_singleton.mp hb] at hx
          exact hnd.1 hx)
      hnd.2]
    rw [List.append_assoc]
    rfl

/-- C3 amended: for every duplicate-free list of labels that the file format
represents faithfully (no commas or newlines, lines unchanged by stripping),
writing them with add_label into an empty document and then reloading the
labels property from a dropped cache returns the same labels in the same
order; a list with duplicates is collapsed by add_label, as the
counterexample shows. -/
theorem addLabels_roundtrip (ls : List Label) (hnd : ls.Nodup)
    (hg : ∀ x ∈ ls, GoodLabel x) :
    ∃ s1, addLabels (DocState.mk none none) ls = .ok s1 ∧
      getLabels (DocState.mk s1.labelFile none) =
        .ok (ls, DocState.mk s1.labelFile (some ls)) := by
  cases ls with
  | nil => exact ⟨DocState.mk none none, rfl, rfl⟩
  | cons l t =>
    have hl : GoodLabel l := hg l (by simp)
    have hfirst : addLabel (DocState.mk none none) l = .ok (docOf [l]) := by
      simp [addLabel, getLabels, readLabels, docOf, writeLabelFile]
    have hnd' := List.nodup_cons.mp hnd
    have hrest : addLabels (docOf [l]) t = .ok (docOf ([l] ++ t)) := by
      apply addLabels_docOf
      · intro x hx
        rw [List.mem_singleton.mp hx]
        exact hl
      · exact fun x hx => hg x (by simp [hx])
      · intro x hx
        rw [List.mem_singleton]
        intro hxl
        rw [hxl] at hx
        exact hnd'.1 hx
      · exact hnd'.2
    have hall : addLabels (DocState.mk none none) (l :: t) = .ok (docOf (l :: t)) := by
      unfold addLabels
      rw [hfirst]
      show addLabels (docOf [l]) t = PyResult.ok (docOf (l :: t))
      rw [hrest]
      rfl
    refine ⟨docOf (l :: t), hall, ?_⟩
    show getLabels (docOf (l :: t)) =
      PyResult.ok (l :: t, DocState.mk (docOf (l :: t)).labelFile (some (l :: t)))
    rw [getLabels_docOf (l :: t) hg]
    rfl

/-- C3 amended witness: the spec example labels (Work, #FF0000) and
(Tax, #00FF00) round-trip through the label file in order. -/
theorem addLabels_roundtrip_witness :
    ∃ s1, addLabels (DocState.mk none none)
        [Label.mk ("Work".data) ("#FF0000".data), Label.mk ("Tax".data) ("#00FF00".data)] =
        .ok s1 ∧
      getLabels (DocState.mk s1.labelFile none) =
        .ok ([Label.mk ("Work".data) ("#FF0000".data), Label.mk ("Tax".data) ("#00FF00".data)],
          DocState.mk s1.labelFile
            (some [Label.mk ("Work".data) ("#FF0000".data),
              Label.mk ("Tax".data) ("#00FF00".data)])) :=
  addLabels_roundtrip
    [Label.mk ("Work".data) ("#FF0000".data), Label.mk ("Tax".data) ("#00FF00".data)]
    (by decide) (by decide)

end Paperwork
